import Mathlib

/-!
Shallow embedding of the per-tenant document store of `src/server.js`
(biblioteca-qa-api): the tenant document model, the document store
(`readStudentDb` / `writeStudentDb`), the query engine (`getBooks`), the
mutation engine (`addBook` / `updateBook` / `deleteBook` and the PUT route's
status validation), the aggregation engine (`getStats`) and the reset
operation (`resetDatabase`).

Conventions of the embedding:
* JavaScript timestamps (`new Date().toISOString()`) are threaded as an
  explicit `now : String` parameter.
* The on-disk store (one JSON file per tenant) is a function
  `Store = String → Option TenantDoc`; `none` models a missing file (ENOENT).
* JavaScript field values reachable by the dynamic `a[sortField]` access are
  modelled by `JVal` (string, integer number, null, undefined).  Numeric
  fields are integers: no claim depends on fractional values.
* A JavaScript expression that throws (`bVal.toLowerCase()` on a non-string)
  is modelled by `Option`/`none`.
-/

namespace Biblioteca

/-- JavaScript values reachable through `book[field]` in `server.js`:
strings, (integer) numbers, `null` and `undefined`. -/
inductive JVal where
  | vstr (s : String)
  | vnum (n : Int)
  | vnull
  | vundefined
deriving DecidableEq, Repr

/-- `BOOK_STATUSES` (src/server.js line 101). -/
def BOOK_STATUSES : List String := ["to-read", "reading", "read", "abandoned"]

/-- A book record as built by `addBook` (src/server.js lines 261-273):
`id`, `title`, `author` strings; `genre` optional string (`null` when
absent); `year`, `pages`, `rating` optional numbers; `status`, `notes`
strings; `addedAt`, `updatedAt` ISO timestamps.  `extra` models any further
properties a JavaScript object could carry (none are ever written by the
code; it is carried to state frame properties about unknown fields). -/
structure Book where
  id : String
  title : String
  author : String
  genre : Option String
  year : Option Int
  pages : Option Int
  rating : Option Int
  status : String
  notes : String
  addedAt : String
  updatedAt : String
  extra : List (String × String)
deriving DecidableEq, Repr

/-- Dynamic property access `book[field]` used by the sort comparator
(src/server.js lines 218-219). -/
def jsGet (b : Book) (field : String) : JVal :=
  if field = "id" then .vstr b.id
  else if field = "title" then .vstr b.title
  else if field = "author" then .vstr b.author
  else if field = "genre" then match b.genre with
    | some g => .vstr g
    | none => .vnull
  else if field = "year" then match b.year with
    | some y => .vnum y
    | none => .vnull
  else if field = "pages" then match b.pages with
    | some p => .vnum p
    | none => .vnull
  else if field = "rating" then match b.rating with
    | some r => .vnum r
    | none => .vnull
  else if field = "status" then .vstr b.status
  else if field = "notes" then .vstr b.notes
  else if field = "addedAt" then .vstr b.addedAt
  else if field = "updatedAt" then .vstr b.updatedAt
  else match b.extra.find? (fun kv => kv.1 = field) with
    | some kv => .vstr kv.2
    | none => .vundefined

/-- Lower-casing a string, `s.toLowerCase()`. -/
def sLower (s : String) : String := String.mk (s.data.map Char.toLower)

/-- `pat` is a prefix of the second list. -/
def startsWithB : List Char → List Char → Bool
  | [], _ => true
  | _ :: _, [] => false
  | a :: pat, b :: rest => a = b && startsWithB pat rest

/-- `pat` occurs as a contiguous sublist of the second list. -/
def subListB (pat : List Char) : List Char → Bool
  | [] => pat.isEmpty
  | c :: cs => startsWithB pat (c :: cs) || subListB pat cs

/-- `needle` occurs as a contiguous substring of `haystack`
(JavaScript `String.prototype.includes`). -/
def strIncl (haystack needle : String) : Bool :=
  subListB needle.data haystack.data

/-!
## Query engine (`DatabaseManager.getBooks`, src/server.js lines 183-251)
-/

/-- The filter/sort part of the query string (`req.query`).  `none` models an
absent parameter; JavaScript truthiness guards (`if (filters.genre)`) are
reproduced in `applyFilters`/`sortStep`, so `some ""` behaves like an absent
string parameter.  `year` and `rating` hold the numeric value of the query
string (`book.year == filters.year` loose equality, `parseInt(filters.rating)`). -/
structure Filters where
  genre : Option String := none
  status : Option String := none
  author : Option String := none
  year : Option Int := none
  rating : Option Int := none
  sort : Option String := none
  order : Option String := none
deriving Repr

/-- JavaScript truthiness of an optional string parameter: present and
non-empty. -/
def truthyS : Option String → Bool
  | some s => s ≠ ""
  | none => false

/-- The filter cascade of `getBooks` (src/server.js lines 188-210), applied
in source order.  Notes kept faithful to JavaScript semantics:
* `book.genre?.toLowerCase().includes(g)` is `false` when `genre` is null
  (optional chaining short-circuits to `undefined`, which is falsy);
* `book.rating >= parseInt(r)` coerces a null rating to `0`. -/
def applyFilters (f : Filters) (books : List Book) : List Book :=
  let b1 := if truthyS f.genre then
      books.filter (fun b => match b.genre with
        | some g => strIncl (sLower g) (sLower (f.genre.getD ""))
        | none => false)
    else books
  let b2 := if truthyS f.status then
      b1.filter (fun b => b.status = f.status.getD "")
    else b1
  let b3 := if truthyS f.author then
      b2.filter (fun b => strIncl (sLower b.author) (sLower (f.author.getD "")))
    else b2
  let b4 := match f.year with
    | some y => b3.filter (fun b => b.year = some y)
    | none => b3
  let b5 := match f.rating with
    | some r => b4.filter (fun b => b.rating.getD 0 ≥ r)
    | none => b4
  b5

/-- JavaScript `ToNumber` on our value domain, `none` standing for `NaN`.
Strings: the empty string converts to `0`, an optional-sign decimal string to
its value, anything else to `NaN` (the only string shapes book fields hold). -/
def toNum : JVal → Option Int
  | .vnum n => some n
  | .vnull => some 0
  | .vundefined => none
  | .vstr s =>
    if s = "" then some 0
    else if s.data.all Char.isDigit then some (s.toNat!)
    else if s.data.head? = some '-' ∧ s.data.tail ≠ [] ∧ s.data.tail.all Char.isDigit then
      some (-(String.mk s.data.tail).toNat!)
    else none

/-- The JavaScript abstract relational comparison `x < y` restricted to our
value domain: string/string compares lexicographically, every other pair
numerically with `NaN` comparisons yielding `false`. -/
def jsLt : JVal → JVal → Bool
  | .vstr a, .vstr b => a < b
  | a, b => match toNum a, toNum b with
    | some x, some y => x < y
    | _, _ => false

/-- The sort comparator of `getBooks` (src/server.js lines 217-229) for a
sort field and an order sign (`1` ascending, `-1` descending), as a function
of the two compared books.  `none` models the comparator throwing: when
`aVal` is a string the code calls `bVal.toLowerCase()` unconditionally, which
throws a TypeError whenever `bVal` is not a string. -/
def cmpBooks (field : String) (ord : Int) (a b : Book) : Option Int :=
  let aVal := jsGet a field
  let bVal := jsGet b field
  match aVal, bVal with
  | .vstr sa, .vstr sb =>
    let la := sLower sa
    let lb := sLower sb
    some (if la < lb then -1 * ord else if lb < la then 1 * ord else 0)
  | .vstr _, _ => none
  | _, _ =>
    some (if jsLt aVal bVal then -1 * ord else if jsLt bVal aVal then 1 * ord else 0)

/-- Stable insertion of `x` after every element `y` with `le y x`. -/
def insertStable (le : Book → Book → Bool) (x : Book) : List Book → List Book
  | [] => [x]
  | y :: ys => if le y x then y :: insertStable le x ys else x :: y :: ys

/-- Stable sort by a boolean `≤` relation. -/
def sortStable (le : Book → Book → Bool) (l : List Book) : List Book :=
  l.foldl (fun acc x => insertStable le x acc) []

/-- The sort step of `getBooks` (src/server.js lines 213-230).  No sort
parameter (or an empty one, falsy) leaves the filtered list untouched.
Otherwise `books.sort(comparator)` runs: the engine's comparator call pattern
is implementation-defined, so the step is modelled as succeeding — with a
stable sort, as ECMAScript guarantees — exactly when every pair of books is
comparable without the comparator throwing, and as a thrown TypeError
(`none`) otherwise. -/
def sortStep (sortQ orderQ : Option String) (books : List Book) : Option (List Book) :=
  if truthyS sortQ then
    let field := sortQ.getD ""
    let ord : Int := if orderQ = some "desc" then -1 else 1
    if books.all (fun a => books.all (fun b => (cmpBooks field ord a b).isSome)) then
      some (sortStable (fun a b => (cmpBooks field ord a b).getD 0 ≤ 0) books)
    else none
  else some books

/-- JavaScript `Array.prototype.slice(start, end)`: negative indices count
from the end of the array, then both are clamped to `[0, length]`. -/
def jsSlice (l : List Book) (start stop : Int) : List Book :=
  let n : Int := l.length
  let rs := if start < 0 then max (n + start) 0 else min start n
  let re := if stop < 0 then max (n + stop) 0 else min stop n
  (l.drop rs.toNat).take (re.toNat - rs.toNat)

/-- `parseInt(q) || d`: an absent/non-numeric parameter (`none`, i.e. `NaN`)
and the falsy value `0` both fall back to the default. -/
def jsOrDefault (q : Option Int) (d : Int) : Int :=
  match q with
  | some v => if v = 0 then d else v
  | none => d

/-- `Math.ceil(n / limit)` for a natural `n` and a nonzero integer `limit`
(after `jsOrDefault` the limit is never `0`). -/
def jsCeilDiv (n : Nat) (limit : Int) : Int :=
  if 0 < limit then ((n + limit.toNat - 1) / limit.toNat : Nat)
  else -((n / (-limit).toNat : Nat))

/-- The pagination metadata object of `getBooks` (src/server.js lines
242-249). -/
structure PageMeta where
  currentPage : Int
  totalPages : Int
  totalBooks : Nat
  booksPerPage : Int
  hasNext : Bool
  hasPrev : Bool
deriving DecidableEq, Repr

/-- The result object of `getBooks` (src/server.js lines 240-250). -/
structure BooksResult where
  books : List Book
  pagination : PageMeta
deriving DecidableEq, Repr

/-- `DatabaseManager.getBooks` (src/server.js lines 183-251) on an in-memory
book sequence: filter cascade, optional sort, then slice
`[(page-1)*limit, page*limit)` with the metadata computed by the source.
`none` models the route failing with a 500 because the sort comparator
threw. -/
def getBooks (books : List Book) (f : Filters) (pageQ limitQ : Option Int) :
    Option BooksResult :=
  let filtered := applyFilters f books
  match sortStep f.sort f.order filtered with
  | none => none
  | some sorted =>
    let page := jsOrDefault pageQ 1
    let limit := jsOrDefault limitQ 10
    let startIndex := (page - 1) * limit
    let endIndex := startIndex + limit
    some
      { books := jsSlice sorted startIndex endIndex
        pagination :=
          { currentPage := page
            totalPages := jsCeilDiv sorted.length limit
            totalBooks := sorted.length
            booksPerPage := limit
            hasNext := decide (endIndex < (sorted.length : Int))
            hasPrev := decide (page > 1) } }

/-!
## Document store (`readStudentDb` / `writeStudentDb` / `createEmptyDb`,
src/server.js lines 107-153)
-/

/-- The registered user record of a tenant document (`db.user`, created by
`createUser`, src/server.js lines 164-172). -/
structure UserRec where
  id : String
  name : String
  email : String
  studentId : String
  password : String
  createdAt : String
  active : Bool
deriving DecidableEq, Repr

/-- The `metadata` object of a tenant document (src/server.js lines 129-133,
147-151, 387-393). -/
structure Metadata where
  createdAt : String
  lastAccess : String
  totalOperations : Nat
  resetAt : Option String := none
  previousOperations : Option Nat := none
deriving DecidableEq, Repr

/-- A tenant document: top-level keys `user`, `books`, `metadata`. -/
structure TenantDoc where
  user : Option UserRec
  books : List Book
  metadata : Metadata
deriving DecidableEq, Repr

/-- The persisted state: one optional document per tenant identifier
(`none` = the tenant's JSON file does not exist yet). -/
def Store : Type := String → Option TenantDoc

/-- `DatabaseManager.createEmptyDb` (src/server.js lines 143-153). -/
def createEmptyDb (now : String) : TenantDoc :=
  { user := none
    books := []
    metadata := { createdAt := now, lastAccess := now, totalOperations := 0 } }

/-- `DatabaseManager.readStudentDb` (src/server.js lines 112-123): return the
stored document, or a fresh empty document when the file is missing
(ENOENT).  The read does not modify the store and does not stamp anything. -/
def readStudentDb (store : Store) (sid : String) (now : String) : TenantDoc :=
  match store sid with
  | some d => d
  | none => createEmptyDb now

/-- `DatabaseManager.writeStudentDb` (src/server.js lines 125-141): stamp
`metadata.lastAccess = now` and `metadata.totalOperations += 1` on the
document, persist it under the tenant, and return the stamped document. -/
def writeStudentDb (store : Store) (sid : String) (data : TenantDoc) (now : String) :
    Store × TenantDoc :=
  let stamped : TenantDoc :=
    { data with
        metadata :=
          { data.metadata with
              lastAccess := now
              totalOperations := data.metadata.totalOperations + 1 } }
  (fun t => if t = sid then some stamped else store t, stamped)

/-!
## Mutation engine (`addBook` / `updateBook` / `deleteBook`,
src/server.js lines 258-314, and the PUT route, lines 724-754)
-/

/-- The payload of a book-creation request (`req.body` of
`POST /:student/books`).  `none` models an absent (or `undefined`) field. -/
structure BookData where
  title : Option String := none
  author : Option String := none
  genre : Option String := none
  year : Option Int := none
  pages : Option Int := none
  rating : Option Int := none
  status : Option String := none
  notes : Option String := none
deriving Repr

/-- `DatabaseManager.addBook` (src/server.js lines 258-279): build the new
record (`bookData.x || default` for the optional fields, status defaulting to
`to-read`), append it to the book sequence, persist, return the new record.
The generated `uuidv4()` identifier is threaded as `newId`. -/
def addBook (store : Store) (sid : String) (bd : BookData) (newId now : String) :
    Store × Book :=
  let db := readStudentDb store sid now
  let newBook : Book :=
    { id := newId
      title := bd.title.getD ""
      author := bd.author.getD ""
      genre := match bd.genre with
        | some g => if g = "" then none else some g
        | none => none
      year := match bd.year with
        | some y => if y = 0 then none else some y
        | none => none
      pages := match bd.pages with
        | some p => if p = 0 then none else some p
        | none => none
      rating := match bd.rating with
        | some r => if r = 0 then none else some r
        | none => none
      status := match bd.status with
        | some s => if s = "" then "to-read" else s
        | none => "to-read"
      notes := bd.notes.getD ""
      addedAt := now
      updatedAt := now
      extra := [] }
  let (store1, _) := writeStudentDb store sid { db with books := db.books ++ [newBook] } now
  (store1, newBook)

/-- The payload of a book-update request (`req.body` of
`PUT /:student/books/:id`).  `none` models an absent (or `undefined`) field;
`extra` carries request properties outside the allow-list. -/
structure UpdateData where
  title : Option String := none
  author : Option String := none
  genre : Option String := none
  year : Option Int := none
  pages : Option Int := none
  rating : Option Int := none
  status : Option String := none
  notes : Option String := none
  extra : List (String × String) := []
deriving Repr

/-- The field loop of `updateBook` (src/server.js lines 289-296): for each
field of the allow-list `['title','author','genre','year','pages','rating',
'status','notes']`, assign it when the request defines it (`!== undefined`),
then stamp `updatedAt`.  No other property of the record is touched. -/
def applyUpdate (b : Book) (u : UpdateData) (now : String) : Book :=
  { b with
      title := u.title.getD b.title
      author := u.author.getD b.author
      genre := match u.genre with
        | some g => some g
        | none => b.genre
      year := match u.year with
        | some y => some y
        | none => b.year
      pages := match u.pages with
        | some p => some p
        | none => b.pages
      rating := match u.rating with
        | some r => some r
        | none => b.rating
      status := u.status.getD b.status
      notes := u.notes.getD b.notes
      updatedAt := now }

/-- `findIndex` + in-place assignment on the found element: returns the
updated element and the updated sequence, or `none` when no element
matches (`findIndex === -1`). -/
def updateFirst (p : Book → Bool) (f : Book → Book) : List Book → Option (Book × List Book)
  | [] => none
  | b :: bs =>
    if p b then
      let b' := f b
      some (b', b' :: bs)
    else
      match updateFirst p f bs with
      | some (r, rest) => some (r, b :: rest)
      | none => none

/-- `findIndex` + `splice(i, 1)`: remove the first matching element,
returning it together with the remaining sequence. -/
def removeFirst (p : Book → Bool) : List Book → Option (Book × List Book)
  | [] => none
  | b :: bs =>
    if p b then some (b, bs)
    else
      match removeFirst p bs with
      | some (r, rest) => some (r, b :: rest)
      | none => none

/-- `DatabaseManager.updateBook` (src/server.js lines 281-300): look the book
up by identifier; on a miss return `null` without touching the store; on a
hit apply the allow-listed fields, stamp `updatedAt`, persist, and return the
updated record. -/
def updateBook (store : Store) (sid bookId : String) (u : UpdateData) (now : String) :
    Store × Option Book :=
  let db := readStudentDb store sid now
  match updateFirst (fun b => b.id = bookId) (fun b => applyUpdate b u now) db.books with
  | none => (store, none)
  | some (b', books') =>
    let (store1, _) := writeStudentDb store sid { db with books := books' } now
    (store1, some b')

/-- `DatabaseManager.deleteBook` (src/server.js lines 302-314): look the book
up by identifier; on a miss return `null` without touching the store; on a
hit splice exactly that record out, persist, and return the removed record. -/
def deleteBook (store : Store) (sid bookId : String) (now : String) :
    Store × Option Book :=
  let db := readStudentDb store sid now
  match removeFirst (fun b => b.id = bookId) db.books with
  | none => (store, none)
  | some (b, books') =>
    let (store1, _) := writeStudentDb store sid { db with books := books' } now
    (store1, some b)

/-- Outcome of the `PUT /:student/books/:id` route. -/
inductive PutOutcome where
  | invalidStatus
  | notFound
  | ok (b : Book)
deriving DecidableEq, Repr

/-- The `PUT /:student/books/:id` handler (src/server.js lines 724-754): the
status guard `if (updateData.status && !BOOK_STATUSES.includes(...))` rejects
with a 400 before `updateBook` runs; note the JavaScript truthiness of the
guard — a present but falsy `status` (the empty string) skips it. -/
def putBook (store : Store) (sid bookId : String) (u : UpdateData) (now : String) :
    Store × PutOutcome :=
  if truthyS u.status ∧ ¬ (u.status.getD "") ∈ BOOK_STATUSES then
    (store, .invalidStatus)
  else
    match updateBook store sid bookId u now with
    | (store1, some b) => (store1, .ok b)
    | (_, none) => (store, .notFound)

/-!
## Reset operation (`DatabaseManager.resetDatabase`,
src/server.js lines 379-402)
-/

/-- The value returned by `resetDatabase`. -/
structure ResetResult where
  deletedBooks : Nat
  totalOperations : Nat
deriving DecidableEq, Repr

/-- `DatabaseManager.resetDatabase` (src/server.js lines 379-402): build a
clean document keeping `user` and `metadata.createdAt` (falling back to `now`
when the stored `createdAt` is falsy), zero the book sequence and the
operation counter, record `resetAt` and `previousOperations`, persist through
`writeStudentDb` (which stamps `lastAccess` and increments the counter), and
return the deleted-book count and the pre-reset operation total. -/
def resetDatabase (store : Store) (sid : String) (now : String) :
    Store × ResetResult :=
  let db := readStudentDb store sid now
  let deletedCount := db.books.length
  let totalOps := db.metadata.totalOperations
  let cleanDb : TenantDoc :=
    { user := db.user
      books := []
      metadata :=
        { createdAt := if db.metadata.createdAt = "" then now else db.metadata.createdAt
          lastAccess := now
          totalOperations := 0
          resetAt := some now
          previousOperations := some totalOps } }
  let (store1, _) := writeStudentDb store sid cleanDb now
  (store1, { deletedBooks := deletedCount, totalOperations := totalOps })

/-!
## Aggregation engine (`DatabaseManager.getStats`,
src/server.js lines 316-377)
-/

/-- `genreCount[g] = (genreCount[g] || 0) + 1` on an association list kept in
key-insertion order (the iteration order of a JavaScript object with
non-numeric string keys). -/
def bump (m : List (String × Nat)) (g : String) : List (String × Nat) :=
  match m with
  | [] => [(g, 1)]
  | (k, c) :: rest => if k = g then (k, c + 1) :: rest else (k, c) :: bump rest g

/-- The counting loop `items.forEach(g => count[g] = (count[g] || 0) + 1)`
(src/server.js lines 348, 354). -/
def countMap (items : List String) : List (String × Nat) :=
  items.foldl bump []

/-- `count[g]` lookup, `0` when absent. -/
def lookCnt : List (String × Nat) → String → Nat
  | [], _ => 0
  | (k, c) :: rest, g => if k = g then c else lookCnt rest g

/-- `Object.keys(count).reduce((a, b) => count[a] > count[b] ? a : b)`
(src/server.js lines 350, 356): keep the accumulator only while its count is
strictly greater, otherwise move to the later key. -/
def pickFav (cnt : String → Nat) : String → List String → String
  | a, [] => a
  | a, b :: ks => pickFav cnt (if cnt a > cnt b then a else b) ks

/-- `Object.keys(count).length > 0 ? reduce(...) : 'N/A'` (src/server.js
lines 349-350, 355-356). -/
def favFrom (m : List (String × Nat)) : String :=
  match m.map Prod.fst with
  | [] => "N/A"
  | k :: ks => pickFav (lookCnt m) k ks

/-- `books.filter(b => b.genre).map(b => b.genre)` (src/server.js line 346):
the genres of the books whose genre is truthy (neither null nor empty). -/
def genresOf (books : List Book) : List String :=
  books.filterMap (fun b => match b.genre with
    | some g => if g = "" then none else some g
    | none => none)

/-- `favoriteGenre` (src/server.js lines 346-350). -/
def favoriteGenre (books : List Book) : String :=
  favFrom (countMap (genresOf books))

/-- `favoriteAuthor` (src/server.js lines 352-356): computed over
`books.map(b => b.author)`, with no truthiness filter. -/
def favoriteAuthor (books : List Book) : String :=
  favFrom (countMap (books.map Book.author))

/-- `Math.round(sum / cnt)` for naturals (`floor(x + 1/2)`), used for the
average page count. -/
def jsRoundDiv (sum cnt : Nat) : Nat := (2 * sum + cnt) / (2 * cnt)

/-- The `library` block of the stats (src/server.js lines 320-326). -/
structure LibStats where
  totalBooks : Nat
  booksRead : Nat
  booksReading : Nat
  booksToRead : Nat
  booksAbandoned : Nat
deriving DecidableEq, Repr

/-- The `reading` block of the stats (src/server.js lines 331-344).  The
average rating (`toFixed(1)`, one decimal place) is represented in tenths. -/
structure ReadingStats where
  totalPages : Nat
  averagePages : Nat
  averageRatingTenths : Nat
  booksThisYear : Nat
  booksThisMonth : Nat
deriving DecidableEq, Repr

/-- The `preferences` block of the stats (src/server.js lines 366-370). -/
structure PrefStats where
  favoriteGenre : String
  favoriteAuthor : String
  topRatedBooks : List (String × Int)
deriving DecidableEq, Repr

/-- The `timeline` block of the stats (src/server.js lines 371-375). -/
structure TimelineStats where
  firstBook : Option String
  lastBook : Option String
  mostProductiveDay : String
deriving DecidableEq, Repr

/-- The full stats object returned by `getStats`. -/
structure StatsR where
  library : LibStats
  reading : ReadingStats
  preferences : PrefStats
  timeline : TimelineStats
deriving DecidableEq, Repr

/-- The stats computation of `getStats` (src/server.js lines 320-376) over a
book sequence.  Timestamps are ISO-8601 strings, so `getFullYear` of
`new Date(s)` is the first 4 characters of `s` and the month pair is the
first 7; `today` stands for `new Date()`.  `pages`/`rating` truthiness
(`filter(b => b.pages)`) excludes both null and `0`. -/
def computeStats (today : String) (books : List Book) : StatsR :=
  let booksWithPages := books.filter (fun b => b.pages.getD 0 ≠ 0)
  let booksWithRating := books.filter (fun b => b.rating.getD 0 ≠ 0)
  let pagesSum := booksWithPages.foldl (fun s b => s + (b.pages.getD 0).toNat) 0
  let ratingSum := booksWithRating.foldl (fun s b => s + (b.rating.getD 0).toNat) 0
  { library :=
      { totalBooks := books.length
        booksRead := (books.filter (fun b => b.status = "read")).length
        booksReading := (books.filter (fun b => b.status = "reading")).length
        booksToRead := (books.filter (fun b => b.status = "to-read")).length
        booksAbandoned := (books.filter (fun b => b.status = "abandoned")).length }
    reading :=
      { totalPages := pagesSum
        averagePages :=
          if booksWithPages.length > 0 then jsRoundDiv pagesSum booksWithPages.length
          else 0
        averageRatingTenths :=
          if booksWithRating.length > 0 then
            jsRoundDiv (10 * ratingSum) booksWithRating.length
          else 0
        booksThisYear :=
          (books.filter (fun b => b.addedAt.take 4 = today.take 4)).length
        booksThisMonth :=
          (books.filter (fun b => b.addedAt.take 7 = today.take 7)).length }
    preferences :=
      { favoriteGenre := favoriteGenre books
        favoriteAuthor := favoriteAuthor books
        topRatedBooks :=
          ((books.filter (fun b => b.rating = some 5)).take 3).map
            (fun b => (b.title, b.rating.getD 0)) }
    timeline :=
      { firstBook := (books.head?).map Book.addedAt
        lastBook := (books.getLast?).map Book.addedAt
        mostProductiveDay := "Lunes" } }

/-- `DatabaseManager.getStats` as a store operation (src/server.js lines
316-377): load the document, compute the stats from its book sequence, and
return — the function contains no call to `writeStudentDb` and no mutation
of the loaded document, so the store passes through unchanged. -/
def getStatsOp (store : Store) (sid : String) (today : String) : StatsR × Store :=
  (computeStats today (readStudentDb store sid today).books, store)

/-!
## Spec-side notions and sample data

`occCount` and `dedupFirst` express, independently of the counting fold of
`getStats`, the spec's notions of "occurrence count" and "first-seen key
order"; the claim theorems compare the source computation against them.
-/

/-- The number of occurrences of `g` in `gs`. -/
def occCount (g : String) (gs : List String) : Nat :=
  (gs.filter (fun x => x = g)).length

/-- Deduplication keeping the first occurrence of each element, continuing
from an accumulator of already-seen keys. -/
def dedupAcc (acc : List String) (gs : List String) : List String :=
  gs.foldl (fun a g => if g ∈ a then a else a ++ [g]) acc

/-- Deduplication keeping the first occurrence of each element, i.e. the
keys of the counting object in first-seen order. -/
def dedupFirst (gs : List String) : List String :=
  dedupAcc [] gs

/-- A book record with the fields the claims vary; the rest fixed. -/
def mkBook (id title author : String) (genre : Option String) (rating : Option Int)
    (status : String) : Book :=
  { id := id, title := title, author := author, genre := genre, year := none
    pages := none, rating := rating, status := status, notes := ""
    addedAt := "2024-03-03T00:00:00.000Z", updatedAt := "2024-03-03T00:00:00.000Z"
    extra := [] }

/-- A store holding exactly one tenant document. -/
def oneDocStore (sid : String) (d : TenantDoc) : Store :=
  fun t => if t = sid then some d else none

/-- Sample user record. -/
def sampleUser : UserRec :=
  { id := "luis_001", name := "Luis Salazar", email := "luis@biblioteca.com"
    studentId := "LUIS", password := "h", createdAt := "2024-01-01T00:00:00.000Z"
    active := true }

/-- Five plain sample books. -/
def fiveBooks : List Book :=
  [mkBook "b1" "T1" "A1" none none "to-read",
   mkBook "b2" "T2" "A2" none none "read",
   mkBook "b3" "T3" "A3" none none "reading",
   mkBook "b4" "T4" "A4" none none "to-read",
   mkBook "b5" "T5" "A5" none none "abandoned"]

/-- C1 sample: a tenant with 5 books and operation counter 12. -/
def resetDoc : TenantDoc :=
  { user := some sampleUser
    books := fiveBooks
    metadata :=
      { createdAt := "2024-01-01T00:00:00.000Z"
        lastAccess := "2024-06-01T00:00:00.000Z"
        totalOperations := 12 } }

/-- C1 sample store. -/
def resetStore : Store := oneDocStore "LUIS" resetDoc

/-- C3 sample: one stored book whose status is `read`. -/
def c3Doc : TenantDoc :=
  { user := none
    books := [mkBook "b1" "Dune" "Herbert" none none "read"]
    metadata :=
      { createdAt := "2024-01-01T00:00:00.000Z"
        lastAccess := "2024-01-01T00:00:00.000Z"
        totalOperations := 3 } }

/-- C3 sample store. -/
def c3Store : Store := oneDocStore "SOFIA" c3Doc

/-- C3 update payload carrying the falsy status value `""`. -/
def c3Upd : UpdateData := { status := some "" }

/-- C7 sample document: two books with distinct identifiers. -/
def c7Doc : TenantDoc :=
  { user := none
    books := [mkBook "b1" "T1" "A1" none none "to-read",
              mkBook "b2" "T2" "A2" none none "read"]
    metadata :=
      { createdAt := "2024-01-01T00:00:00.000Z"
        lastAccess := "2024-01-01T00:00:00.000Z"
        totalOperations := 4 } }

/-- C7 sample store. -/
def c7Store : Store := oneDocStore "CALEB" c7Doc

/-- C8 sample store (same shape as the C7 document). -/
def c8Store : Store := oneDocStore "SOFIA" c7Doc

/-- C8 update payload: one allow-listed field and one unknown field. -/
def c8Upd : UpdateData := { rating := some 4, extra := [("hacked", "yes")] }

/-- C9 sample document: stale `lastAccess`. -/
def c9Doc : TenantDoc :=
  { user := none
    books := []
    metadata :=
      { createdAt := "2024-01-01T00:00:00.000Z"
        lastAccess := "2024-01-01T00:00:00.000Z"
        totalOperations := 7 } }

/-- C9 sample store. -/
def c9Store : Store := oneDocStore "CALEB" c9Doc

/-- C6 sample: two books with distinct genres, each occurring once. -/
def c6Books : List Book :=
  [mkBook "b1" "T1" "X" (some "aventura") none "read",
   mkBook "b2" "T2" "Y" (some "terror") none "read"]

/-- C10 sample: a book whose genre is a string. -/
def c10A : Book := mkBook "b1" "T1" "A1" (some "drama") none "read"

/-- C10 sample: a book whose genre is null. -/
def c10B : Book := mkBook "b2" "T2" "A2" none none "read"

/-- C4 sample: two plain books. -/
def c4Books : List Book :=
  [mkBook "b1" "T1" "A1" none none "to-read",
   mkBook "b2" "T2" "A2" none none "read"]

/-!
## Claim theorems
-/

/-- C2: saving a tenant document and loading it again yields the stamped
document returned by the save; the stamped document agrees with the saved
one on `user`, `books`, `metadata.createdAt`, `metadata.resetAt` and
`metadata.previousOperations`, while `totalOperations` is incremented by
exactly 1 and `lastAccess` is stamped with the save time. -/
theorem save_load_round_trip (store : Store) (sid : String) (doc : TenantDoc)
    (now later : String) :
    readStudentDb (writeStudentDb store sid doc now).1 sid later
      = (writeStudentDb store sid doc now).2
    ∧ (writeStudentDb store sid doc now).2.user = doc.user
    ∧ (writeStudentDb store sid doc now).2.books = doc.books
    ∧ (writeStudentDb store sid doc now).2.metadata.createdAt = doc.metadata.createdAt
    ∧ (writeStudentDb store sid doc now).2.metadata.resetAt = doc.metadata.resetAt
    ∧ (writeStudentDb store sid doc now).2.metadata.previousOperations
        = doc.metadata.previousOperations
    ∧ (writeStudentDb store sid doc now).2.metadata.totalOperations
        = doc.metadata.totalOperations + 1
    ∧ (writeStudentDb store sid doc now).2.metadata.lastAccess = now := by
  refine ⟨?_, rfl, rfl, rfl, rfl, rfl, rfl, rfl⟩
  simp [readStudentDb, writeStudentDb]

/-- C1 counterexample: resetting the sample tenant (5 books, operation
counter 12) persists a document whose operation counter is 1, not 0 — the
persisting save itself increments the counter that `resetDatabase` zeroed. -/
theorem reset_counter_not_zero_ce :
    ((resetDatabase resetStore "LUIS" "2025-01-01").1 "LUIS").map
        (fun d => d.metadata.totalOperations) = some 1
    ∧ ¬ ((resetDatabase resetStore "LUIS" "2025-01-01").1 "LUIS").map
        (fun d => d.metadata.totalOperations) = some 0 := by
  constructor
  · rfl
  · decide

/-- C1 (amended): the reset operation persists a document with an empty book
sequence, the `UserRecord` and original creation timestamp preserved, the
reset timestamp and pre-reset operation count recorded in metadata, and the
operation counter set to 0 and then incremented to 1 by the persisting save
(so the persisted counter is 1, not 0); it returns the count of deleted
books together with the pre-reset operation total. -/
theorem reset_spec (store : Store) (sid now : String) (db : TenantDoc)
    (hdb : store sid = some db) (hc : db.metadata.createdAt ≠ "") :
    (resetDatabase store sid now).2
      = { deletedBooks := db.books.length
          totalOperations := db.metadata.totalOperations }
    ∧ (resetDatabase store sid now).1 sid = some
        { user := db.user
          books := []
          metadata :=
            { createdAt := db.metadata.createdAt
              lastAccess := now
              totalOperations := 1
              resetAt := some now
              previousOperations := some db.metadata.totalOperations } } := by
  constructor
  · simp [resetDatabase, readStudentDb, hdb]
  · simp [resetDatabase, readStudentDb, hdb, writeStudentDb, hc]

/-- C1 witness: the amended reset theorem at the sample tenant. -/
theorem reset_spec_witness :
    (resetDatabase resetStore "LUIS" "2025-01-01").2
      = { deletedBooks := 5, totalOperations := 12 }
    ∧ (resetDatabase resetStore "LUIS" "2025-01-01").1 "LUIS" = some
        { user := resetDoc.user
          books := []
          metadata :=
            { createdAt := "2024-01-01T00:00:00.000Z"
              lastAccess := "2025-01-01"
              totalOperations := 1
              resetAt := some "2025-01-01"
              previousOperations := some 12 } } :=
  reset_spec resetStore "LUIS" "2025-01-01" resetDoc rfl (by decide)

/-- C3 counterexample: an update whose `status` field is present with the
value `""` — not one of the four valid statuses — is not rejected: the PUT
handler's truthiness guard skips it, the update is applied, and the stored
record's status becomes `""`. -/
theorem empty_status_bypasses_validation_ce :
    ¬ (putBook c3Store "SOFIA" "b1" c3Upd "2025-02-02").2 = PutOutcome.invalidStatus
    ∧ ((putBook c3Store "SOFIA" "b1" c3Upd "2025-02-02").1 "SOFIA").map
        (fun d => d.books.map Book.status) = some [""] := by
  constructor
  · decide
  · rfl

/-- C3 (amended): for every update request whose `status` field is present
with a truthy value (a non-empty string), if that value is not one of the
four valid statuses the update is rejected with a validation error before
any field is applied and the store is unchanged; a present-but-falsy status
(the empty string) bypasses this validation. -/
theorem invalid_truthy_status_rejected (store : Store) (sid bookId : String)
    (u : UpdateData) (now s : String)
    (hs : u.status = some s) (hne : s ≠ "") (hval : s ∉ BOOK_STATUSES) :
    putBook store sid bookId u now = (store, PutOutcome.invalidStatus) := by
  simp [putBook, truthyS, hs, hne, hval]

/-- C3 witness: the amended status-validation theorem at `status = "bogus"`. -/
theorem invalid_truthy_status_rejected_witness :
    putBook c3Store "SOFIA" "b1" { status := some "bogus" } "2025-02-02"
      = (c3Store, PutOutcome.invalidStatus) :=
  invalid_truthy_status_rejected c3Store "SOFIA" "b1" { status := some "bogus" }
    "2025-02-02" "bogus" rfl (by decide) (by decide)

/-- C9 counterexample: a statistics call at a later time leaves the stored
document's `lastAccess` untouched — the load performs no last-access
refresh, contradicting the claim that tenant-document access refreshes
last-access bookkeeping as a side effect of the load. -/
theorem stats_no_last_access_refresh_ce :
    ((getStatsOp c9Store "CALEB" "2025-09-09T00:00:00.000Z").2 "CALEB").map
        (fun d => d.metadata.lastAccess) = some "2024-01-01T00:00:00.000Z"
    ∧ ¬ ((getStatsOp c9Store "CALEB" "2025-09-09T00:00:00.000Z").2 "CALEB").map
        (fun d => d.metadata.lastAccess) = some "2025-09-09T00:00:00.000Z" := by
  constructor
  · rfl
  · decide

/-- C9 (amended): the statistics operation performs no document mutation and
no persistence call — the store after the call is the store before it — and
the tenant-document load it makes does not refresh any bookkeeping either:
loading an existing document returns it exactly as stored (`lastAccess` and
`totalOperations` advance only on a save). -/
theorem stats_pure_read (store : Store) (sid today : String) :
    (getStatsOp store sid today).2 = store
    ∧ ∀ db, store sid = some db → readStudentDb store sid today = db := by
  refine ⟨rfl, ?_⟩
  intro db h
  simp [readStudentDb, h]

/-- C9 witness: the pure-read theorem at the sample store. -/
theorem stats_pure_read_witness :
    (getStatsOp c9Store "CALEB" "2025-09-09T00:00:00.000Z").2 = c9Store
    ∧ readStudentDb c9Store "CALEB" "2025-09-09T00:00:00.000Z" = c9Doc :=
  ⟨(stats_pure_read c9Store "CALEB" "2025-09-09T00:00:00.000Z").1,
   (stats_pure_read c9Store "CALEB" "2025-09-09T00:00:00.000Z").2 c9Doc rfl⟩

/-- C10: evaluating the sort comparator at the failing input — the first
book's genre is the string `"drama"`, the second book's genre is null —
shows it throwing (the code calls `bVal.toLowerCase()` whenever `aVal` is a
string): the comparison does not return an ordering result, and a listing
sorted by that field becomes an internal error rather than a sorted page. -/
theorem sort_comparator_throws_on_null :
    cmpBooks "genre" 1 c10A c10B = none
    ∧ getBooks [c10A, c10B] { sort := some "genre" } none none = none := by
  constructor
  · rfl
  · rfl

/-- `removeFirst` on a sequence whose first match is `b`: it removes exactly
`b` and keeps the rest in order. -/
theorem removeFirst_append (p : Book → Bool) (pre : List Book) (b : Book)
    (post : List Book) (hpre : ∀ x ∈ pre, p x = false) (hb : p b = true) :
    removeFirst p (pre ++ b :: post) = some (b, pre ++ post) := by
  induction pre with
  | nil => simp [removeFirst, hb]
  | cons y ys ih =>
    have hy : p y = false := hpre y (by simp)
    have ih2 := ih (fun x hx => hpre x (by simp [hx]))
    simp [removeFirst, hy, ih2]

/-- `removeFirst` on a sequence with no match returns `none`. -/
theorem removeFirst_none (p : Book → Bool) (l : List Book)
    (h : ∀ x ∈ l, p x = false) : removeFirst p l = none := by
  induction l with
  | nil => rfl
  | cons y ys ih =>
    have hy : p y = false := h y (by simp)
    have ih2 := ih (fun x hx => h x (by simp [hx]))
    simp [removeFirst, hy, ih2]

/-- `updateFirst` on a sequence whose first match is `b`: it rewrites exactly
`b` in place and returns the rewritten record. -/
theorem updateFirst_append (p : Book → Bool) (f : Book → Book) (pre : List Book)
    (b : Book) (post : List Book) (hpre : ∀ x ∈ pre, p x = false) (hb : p b = true) :
    updateFirst p f (pre ++ b :: post) = some (f b, pre ++ f b :: post) := by
  induction pre with
  | nil => simp [updateFirst, hb]
  | cons y ys ih =>
    have hy : p y = false := hpre y (by simp)
    have ih2 := ih (fun x hx => hpre x (by simp [hx]))
    simp [updateFirst, hy, ih2]

/-- C7: on a document whose book sequence contains exactly one record with
the given identifier, the first delete removes exactly that record (the
order of the remaining records is preserved and the sequence shrinks by 1)
and returns the removed record; the second delete with the same identifier
returns not-found, changes nothing in the store, and performs no
persistence. -/
theorem delete_twice (store : Store) (sid bid now now2 : String) (db : TenantDoc)
    (pre post : List Book) (b : Book)
    (hdb : store sid = some db) (hbooks : db.books = pre ++ b :: post)
    (hb : b.id = bid) (hpre : ∀ x ∈ pre, x.id ≠ bid) (hpost : ∀ x ∈ post, x.id ≠ bid) :
    (deleteBook store sid bid now).2 = some b
    ∧ ((deleteBook store sid bid now).1 sid).map TenantDoc.books = some (pre ++ post)
    ∧ (pre ++ post).length + 1 = db.books.length
    ∧ deleteBook (deleteBook store sid bid now).1 sid bid now2
        = ((deleteBook store sid bid now).1, none) := by
  have hrm := removeFirst_append (fun x => x.id = bid) pre b post
    (fun x hx => by simp [hpre x hx]) (by simp [hb])
  have hrm2 : removeFirst (fun x => x.id = bid) (pre ++ post) = none := by
    refine removeFirst_none _ _ (fun x hx => ?_)
    rcases List.mem_append.mp hx with h | h
    · simp [hpre x h]
    · simp [hpost x h]
  have hdel : deleteBook store sid bid now
      = ((writeStudentDb store sid { db with books := pre ++ post } now).1, some b) := by
    simp [deleteBook, readStudentDb, hdb, hbooks, hrm]
  refine ⟨by rw [hdel], ?_, by simp [hbooks]; omega, ?_⟩
  · rw [hdel]
    simp [writeStudentDb]
  · rw [hdel]
    simp [deleteBook, readStudentDb, writeStudentDb, hrm2]

/-- C7 witness: the delete-twice theorem at the sample two-book document. -/
theorem delete_twice_witness :
    (deleteBook c7Store "CALEB" "b2" "2025-03-03").2
      = some (mkBook "b2" "T2" "A2" none none "read")
    ∧ ((deleteBook c7Store "CALEB" "b2" "2025-03-03").1 "CALEB").map TenantDoc.books
      = some [mkBook "b1" "T1" "A1" none none "to-read"]
    ∧ ([mkBook "b1" "T1" "A1" none none "to-read"] : List Book).length + 1
      = c7Doc.books.length
    ∧ deleteBook (deleteBook c7Store "CALEB" "b2" "2025-03-03").1 "CALEB" "b2" "2025-04-04"
      = ((deleteBook c7Store "CALEB" "b2" "2025-03-03").1, none) := by
  have h := delete_twice c7Store "CALEB" "b2" "2025-03-03" "2025-04-04" c7Doc
    [mkBook "b1" "T1" "A1" none none "to-read"] []
    (mkBook "b2" "T2" "A2" none none "read")
    rfl rfl rfl (by decide) (by simp)
  exact ⟨h.1, h.2.1, h.2.2.1, h.2.2.2⟩

/-- C8: for every update request applied to a stored record, the stored
record after the update is exactly the old record with the eight
allow-listed fields (`title`, `author`, `genre`, `year`, `pages`, `rating`,
`status`, `notes`) replaced by the request values when present, plus the
refreshed `updatedAt` stamp; `id`, `addedAt` and every unknown property are
unchanged, so a request field outside the allow-list never reaches the
stored record and remains absent from it. -/
theorem update_allowlist (store : Store) (sid bid : String) (u : UpdateData)
    (now : String) (db : TenantDoc) (pre post : List Book) (b : Book)
    (hdb : store sid = some db) (hbooks : db.books = pre ++ b :: post)
    (hb : b.id = bid) (hpre : ∀ x ∈ pre, x.id ≠ bid) :
    (updateBook store sid bid u now).2 = some (applyUpdate b u now)
    ∧ ((updateBook store sid bid u now).1 sid).map TenantDoc.books
        = some (pre ++ applyUpdate b u now :: post)
    ∧ (applyUpdate b u now).id = b.id
    ∧ (applyUpdate b u now).addedAt = b.addedAt
    ∧ (applyUpdate b u now).extra = b.extra
    ∧ (applyUpdate b u now).updatedAt = now
    ∧ (applyUpdate b u now).title = u.title.getD b.title
    ∧ (applyUpdate b u now).author = u.author.getD b.author
    ∧ (applyUpdate b u now).genre = (u.genre.map some).getD b.genre
    ∧ (applyUpdate b u now).year = (u.year.map some).getD b.year
    ∧ (applyUpdate b u now).pages = (u.pages.map some).getD b.pages
    ∧ (applyUpdate b u now).rating = (u.rating.map some).getD b.rating
    ∧ (applyUpdate b u now).status = u.status.getD b.status
    ∧ (applyUpdate b u now).notes = u.notes.getD b.notes
    ∧ ∀ k, k ∉ b.extra.map Prod.fst → k ∉ (applyUpdate b u now).extra.map Prod.fst := by
  have hup := updateFirst_append (fun x => x.id = bid) (fun x => applyUpdate x u now)
    pre b post (fun x hx => by simp [hpre x hx]) (by simp [hb])
  have hmain : updateBook store sid bid u now
      = ((writeStudentDb store sid { db with books := pre ++ applyUpdate b u now :: post } now).1,
         some (applyUpdate b u now)) := by
    simp [updateBook, readStudentDb, hdb, hbooks, hup]
  refine ⟨by rw [hmain], ?_, rfl, rfl, rfl, rfl, ?_, ?_, ?_, ?_, ?_, ?_, ?_, ?_, ?_⟩
  · rw [hmain]
    simp [writeStudentDb]
  · cases hx : u.title <;> simp [applyUpdate, hx]
  · cases hx : u.author <;> simp [applyUpdate, hx]
  · cases hx : u.genre <;> simp [applyUpdate, hx]
  · cases hx : u.year <;> simp [applyUpdate, hx]
  · cases hx : u.pages <;> simp [applyUpdate, hx]
  · cases hx : u.rating <;> simp [applyUpdate, hx]
  · cases hx : u.status <;> simp [applyUpdate, hx]
  · cases hx : u.notes <;> simp [applyUpdate, hx]
  · intro k hk
    exact hk

/-- C8 witness: the allow-list theorem at a request carrying one
allow-listed field and one unknown field. -/
theorem update_allowlist_witness :
    (updateBook c8Store "SOFIA" "b1" c8Upd "2025-02-02").2
      = some (applyUpdate (mkBook "b1" "T1" "A1" none none "to-read") c8Upd "2025-02-02")
    ∧ ¬ "hacked" ∈
        (applyUpdate (mkBook "b1" "T1" "A1" none none "to-read") c8Upd "2025-02-02").extra.map
          Prod.fst := by
  have h := update_allowlist c8Store "SOFIA" "b1" c8Upd "2025-02-02" c7Doc []
    [mkBook "b2" "T2" "A2" none none "read"] (mkBook "b1" "T1" "A1" none none "to-read")
    rfl rfl rfl (by simp)
  obtain ⟨h1, -, -, -, -, -, -, -, -, -, -, -, -, -, hlast⟩ := h
  exact ⟨h1, hlast "hacked" (by decide)⟩

/-- `jsCeilDiv n s` is the ceiling of `n / s` for a positive `s`: it is the
least `k` with `n ≤ k * s`. -/
theorem jsCeilDiv_galois (n : Nat) (s : Int) (hs : 1 ≤ s) (k : Nat) :
    (n : Int) ≤ k * s ↔ jsCeilDiv n s ≤ (k : Int) := by
  have hs0 : 0 < s := hs
  have hst : ((s.toNat : Int)) = s := Int.toNat_of_nonneg (by omega)
  have hs1 : 1 ≤ s.toNat := by omega
  unfold jsCeilDiv
  rw [if_pos hs0]
  have hL : (n ≤ k * s.toNat) ↔ ((n : Int) ≤ (k : Int) * s) := by
    rw [← Nat.cast_le (α := Int)]
    push_cast
    rw [hst]
  have hcast2 : (((n + s.toNat - 1) / s.toNat : Nat) : Int) ≤ (k : Int)
      ↔ (n + s.toNat - 1) / s.toNat ≤ k := by
    exact_mod_cast Iff.rfl
  rw [← hL, hcast2, Nat.div_le_iff_le_mul_add_pred hs1, Nat.mul_comm s.toNat k]
  omega

/-- `jsCeilDiv` is nonnegative for a positive `s`. -/
theorem jsCeilDiv_nonneg (n : Nat) (s : Int) (hs : 1 ≤ s) : 0 ≤ jsCeilDiv n s := by
  unfold jsCeilDiv
  rw [if_pos (by omega : (0:Int) < s)]
  exact Int.natCast_nonneg _

/-- For nonnegative indices, `jsSlice l a (a + s)` is the mathematical slice
`[a, a+s)`: drop `a`, take `s`. -/
theorem jsSlice_nonneg (l : List Book) (a s : Int) (ha : 0 ≤ a) (hs : 0 ≤ s) :
    jsSlice l a (a + s) = (l.drop a.toNat).take s.toNat := by
  simp only [jsSlice]
  rw [if_neg (by omega : ¬ a < 0), if_neg (by omega : ¬ a + s < 0)]
  by_cases hn : a ≤ (l.length : Int)
  · rw [min_eq_left hn]
    by_cases hend : a + s ≤ (l.length : Int)
    · rw [min_eq_left hend]
      have : (a + s).toNat - a.toNat = s.toNat := by omega
      rw [this]
    · rw [min_eq_right (by omega : (l.length : Int) ≤ a + s)]
      have hlen : (l.drop a.toNat).length = l.length - a.toNat := List.length_drop _ _
      have h1 : (l.drop a.toNat).length ≤ (l.length : Int).toNat - a.toNat := by omega
      have h2 : (l.drop a.toNat).length ≤ s.toNat := by omega
      rw [List.take_of_length_le h1, List.take_of_length_le h2]
  · rw [min_eq_right (by omega : (l.length : Int) ≤ a),
        min_eq_right (by omega : (l.length : Int) ≤ a + s)]
    have h1 : l.length ≤ ((l.length : Int)).toNat := by omega
    have h2 : l.length ≤ a.toNat := by omega
    rw [List.drop_eq_nil_of_le h1, List.drop_eq_nil_of_le h2]
    simp

/-- `getBooks` at a positive page and page size, given a successful sort
step: the result is the mathematical slice with the source's metadata. -/
theorem getBooks_pos (books : List Book) (f : Filters) (p s : Int)
    (hp : 1 ≤ p) (hs : 1 ≤ s) (sorted : List Book)
    (hsort : sortStep f.sort f.order (applyFilters f books) = some sorted) :
    getBooks books f (some p) (some s) = some
      { books := (sorted.drop ((p - 1) * s).toNat).take s.toNat
        pagination :=
          { currentPage := p
            totalPages := jsCeilDiv sorted.length s
            totalBooks := sorted.length
            booksPerPage := s
            hasNext := decide (p * s < (sorted.length : Int))
            hasPrev := decide (p > 1) } } := by
  simp only [getBooks, hsort]
  have hpd : jsOrDefault (some p) 1 = p := by
    simp only [jsOrDefault]
    rw [if_neg (by omega : ¬ p = 0)]
  have hsd : jsOrDefault (some s) 10 = s := by
    simp only [jsOrDefault]
    rw [if_neg (by omega : ¬ s = 0)]
  simp only [hpd, hsd]
  have hslice := jsSlice_nonneg sorted ((p - 1) * s) s
    (mul_nonneg (by omega) (by omega)) (by omega)
  have hps : (p - 1) * s + s = p * s := by ring
  rw [hps] at hslice
  rw [hps, hslice]

/-- Concatenating the `k` successive slices of width `s` recovers the first
`k * s` elements. -/
theorem slices_flatten (l : List Book) (s : Nat) (k : Nat) :
    ((List.range k).map (fun i => (l.drop (i * s)).take s)).flatten = l.take (k * s) := by
  induction k with
  | zero => simp
  | succ k ih =>
    rw [List.range_succ, List.map_append, List.flatten_append, ih]
    simp only [List.map_cons, List.map_nil, List.flatten_cons, List.flatten_nil,
      List.append_nil]
    rw [Nat.succ_mul, List.take_add]

/-- C4 counterexample: requesting page `-1` with page size 1 on a two-book
collection returns a non-empty result — the JavaScript slice wraps negative
indices — although page `-1` is out of range and the claimed slice
`[(page-1)*size, page*size) = [-2, -1)` is empty. -/
theorem negative_page_not_empty_ce :
    (getBooks c4Books {} (some (-1)) (some 1)).map BooksResult.books
      = some [mkBook "b1" "T1" "A1" none none "to-read"]
    ∧ ¬ (getBooks c4Books {} (some (-1)) (some 1)).map BooksResult.books
      = some [] := by
  constructor
  · rfl
  · decide

/-- C4 (amended): for every book sequence, filter set, page number ≥ 1 and
page size ≥ 1 (the spec's 1-based pagination domain), when the sort step
succeeds the query result is the slice `[(page-1)*size, page*size)` of the
filtered and sorted sequence, with metadata reporting the current page, the
total page count (`ceil(totalMatches/size)`: the least `k` with
`totalMatches ≤ k*size`), the total matching count, the page size,
`hasNext = page*size < totalMatches` and `hasPrev = page > 1`; every page
beyond the last yields an empty slice with this same metadata.  Page numbers
below 1 are not clamped by the code: the JavaScript slice wraps them, which
can return a non-empty slice (see the counterexample). -/
theorem getBooks_pagination (books : List Book) (f : Filters) (p s : Int)
    (hp : 1 ≤ p) (hs : 1 ≤ s) (sorted : List Book)
    (hsort : sortStep f.sort f.order (applyFilters f books) = some sorted) :
    getBooks books f (some p) (some s) = some
      { books := (sorted.drop ((p - 1) * s).toNat).take s.toNat
        pagination :=
          { currentPage := p
            totalPages := jsCeilDiv sorted.length s
            totalBooks := sorted.length
            booksPerPage := s
            hasNext := decide (p * s < (sorted.length : Int))
            hasPrev := decide (p > 1) } }
    ∧ (∀ k : Nat, ((sorted.length : Int) ≤ k * s
        ↔ jsCeilDiv sorted.length s ≤ (k : Int)))
    ∧ (jsCeilDiv sorted.length s < p →
        (sorted.drop ((p - 1) * s).toNat).take s.toNat = []) := by
  refine ⟨getBooks_pos books f p s hp hs sorted hsort,
    fun k => jsCeilDiv_galois sorted.length s hs k, ?_⟩
  intro htp
  have hk : (((p - 1).toNat : Int)) = p - 1 := Int.toNat_of_nonneg (by omega)
  have h1 : jsCeilDiv sorted.length s ≤ (((p - 1).toNat : Nat) : Int) := by omega
  have h2 := (jsCeilDiv_galois sorted.length s hs ((p - 1).toNat)).mpr h1
  rw [hk] at h2
  have h4 : sorted.length ≤ ((p - 1) * s).toNat := by omega
  rw [List.drop_eq_nil_of_le h4, List.take_nil]

/-- C4 witness: the amended pagination theorem at an out-of-range page
(page 5, size 1, two books). -/
theorem getBooks_pagination_witness :
    getBooks c4Books {} (some 5) (some 1) = some
      { books := []
        pagination :=
          { currentPage := 5, totalPages := 2, totalBooks := 2, booksPerPage := 1
            hasNext := false, hasPrev := true } }
    ∧ (c4Books.drop (((5:Int) - 1) * 1).toNat).take (1:Int).toNat = [] := by
  have h := getBooks_pagination c4Books {} 5 1 (by decide) (by decide) c4Books rfl
  exact ⟨h.1, h.2.2 (by decide)⟩

/-- C5: for every book sequence, filter/sort combination and page size ≥ 1,
when the sort step succeeds, concatenating the pages for page = 1 up to the
reported total page count, in order, reproduces exactly the filtered and
sorted sequence — no duplicates, no omissions. -/
theorem pagination_complete (books : List Book) (f : Filters) (s : Int)
    (hs : 1 ≤ s) (sorted : List Book)
    (hsort : sortStep f.sort f.order (applyFilters f books) = some sorted) :
    ((List.range (jsCeilDiv sorted.length s).toNat).map
        (fun i : Nat => ((getBooks books f (some ((i : Int) + 1)) (some s)).map
          BooksResult.books).getD [])).flatten = sorted := by
  have hst : ((s.toNat : Int)) = s := Int.toNat_of_nonneg (by omega)
  have hpage : ∀ i : Nat,
      ((getBooks books f (some ((i : Int) + 1)) (some s)).map BooksResult.books).getD []
        = (sorted.drop (i * s.toNat)).take s.toNat := by
    intro i
    rw [getBooks_pos books f ((i : Int) + 1) s (by omega) hs sorted hsort]
    simp only [Option.map_some', Option.getD_some]
    have h1 : ((i : Int) + 1 - 1) * s = (((i * s.toNat : Nat)) : Int) := by
      push_cast
      rw [hst]
      ring
    rw [h1, Int.toNat_natCast]
  have hfun : (fun i : Nat => ((getBooks books f (some ((i : Int) + 1)) (some s)).map
      BooksResult.books).getD [])
      = (fun i : Nat => (sorted.drop (i * s.toNat)).take s.toNat) := funext hpage
  rw [hfun, slices_flatten]
  apply List.take_of_length_le
  have htp : 0 ≤ jsCeilDiv sorted.length s := jsCeilDiv_nonneg _ _ hs
  have hgal := (jsCeilDiv_galois sorted.length s hs
      ((jsCeilDiv sorted.length s).toNat)).mpr
    (by rw [Int.toNat_of_nonneg htp])
  have hEq : (((jsCeilDiv sorted.length s).toNat * s.toNat : Nat) : Int)
      = ((jsCeilDiv sorted.length s).toNat : Int) * s := by
    push_cast
    rw [hst]
  rw [← hEq] at hgal
  exact_mod_cast hgal

/-- C5 witness: page concatenation at the sample two-book collection with
page size 1. -/
theorem pagination_complete_witness :
    ((List.range (jsCeilDiv c4Books.length 1).toNat).map
        (fun i : Nat => ((getBooks c4Books {} (some ((i : Int) + 1)) (some 1)).map
          BooksResult.books).getD [])).flatten = c4Books :=
  pagination_complete c4Books {} 1 (by decide) c4Books rfl

/-- `bump` increments the count of `g` by one and leaves every other count
unchanged. -/
theorem lookCnt_bump (m : List (String × Nat)) (g k : String) :
    lookCnt (bump m g) k = lookCnt m k + (if k = g then 1 else 0) := by
  induction m with
  | nil =>
    by_cases h : k = g
    · subst h
      simp [bump, lookCnt]
    · have h2 : ¬ g = k := fun hh => h hh.symm
      simp [bump, lookCnt, h, h2]
  | cons kv rest ih =>
    obtain ⟨k0, c0⟩ := kv
    by_cases h0 : k0 = g
    · subst h0
      by_cases hk : k0 = k
      · subst hk
        simp [bump, lookCnt]
      · have hk2 : ¬ k = k0 := fun hh => hk hh.symm
        simp [bump, lookCnt, hk, hk2]
    · by_cases hk : k0 = k
      · subst hk
        have hkg : ¬ k0 = g := h0
        have hkg2 : ¬ k0 = g := h0
        simp [bump, lookCnt, hkg, hkg2, h0]
      · simp [bump, lookCnt, h0, hk, ih]

/-- `bump` appends a fresh key at the end and otherwise keeps the key list. -/
theorem keys_bump (m : List (String × Nat)) (g : String) :
    (bump m g).map Prod.fst =
      if g ∈ m.map Prod.fst then m.map Prod.fst else m.map Prod.fst ++ [g] := by
  induction m with
  | nil => simp [bump]
  | cons kv rest ih =>
    obtain ⟨k0, c0⟩ := kv
    by_cases h0 : k0 = g
    · subst h0
      simp [bump]
    · have h0s : ¬ g = k0 := fun hh => h0 hh.symm
      simp only [bump, if_neg h0, List.map_cons, ih]
      by_cases hmem : g ∈ rest.map Prod.fst
      · rw [if_pos hmem, if_pos (List.mem_cons_of_mem _ hmem)]
      · have hnotin : g ∉ k0 :: rest.map Prod.fst := by
          intro hg
          rcases List.mem_cons.mp hg with hg | hg
          · exact h0s hg
          · exact hmem hg
        rw [if_neg hmem, if_neg hnotin]
        simp

/-- Occurrence count over a cons cell. -/
theorem occCount_cons (k g : String) (rest : List String) :
    occCount k (g :: rest) = (if k = g then 1 else 0) + occCount k rest := by
  by_cases h : k = g
  · subst h
    rw [occCount, occCount, List.filter_cons_of_pos (by simp), if_pos rfl,
      List.length_cons]
    omega
  · have h2 : ¬ g = k := fun hh => h hh.symm
    rw [occCount, occCount, List.filter_cons_of_neg (by simp [h2]), if_neg h]
    omega

/-- The counting fold computes occurrence counts, shifted by the initial
map's counts. -/
theorem lookCnt_foldl (gs : List String) : ∀ (m : List (String × Nat)) (k : String),
    lookCnt (gs.foldl bump m) k = lookCnt m k + occCount k gs := by
  induction gs with
  | nil =>
    intro m k
    simp [occCount]
  | cons g rest ih =>
    intro m k
    simp only [List.foldl_cons]
    rw [ih (bump m g) k, lookCnt_bump, occCount_cons]
    ring

/-- The counting fold's key list is the first-seen deduplication of the
input, continuing from the initial keys. -/
theorem keys_foldl (gs : List String) : ∀ (m : List (String × Nat)),
    (gs.foldl bump m).map Prod.fst = dedupAcc (m.map Prod.fst) gs := by
  induction gs with
  | nil =>
    intro m
    simp [dedupAcc]
  | cons g rest ih =>
    intro m
    simp only [List.foldl_cons, dedupAcc]
    rw [ih (bump m g), keys_bump]
    rfl

/-- Membership in the first-seen deduplication. -/
theorem mem_dedupAcc (x : String) (gs : List String) : ∀ acc : List String,
    x ∈ dedupAcc acc gs ↔ x ∈ acc ∨ x ∈ gs := by
  induction gs with
  | nil =>
    intro acc
    simp [dedupAcc]
  | cons g rest ih =>
    intro acc
    have hstep : dedupAcc acc (g :: rest)
        = dedupAcc (if g ∈ acc then acc else acc ++ [g]) rest := rfl
    rw [hstep, ih]
    by_cases h : g ∈ acc
    · rw [if_pos h]
      constructor
      · intro hx
        rcases hx with hx | hx
        · exact Or.inl hx
        · exact Or.inr (List.mem_cons_of_mem _ hx)
      · intro hx
        rcases hx with hx | hx
        · exact Or.inl hx
        · rcases List.mem_cons.mp hx with rfl | hx
          · exact Or.inl h
          · exact Or.inr hx
    · rw [if_neg h]
      constructor
      · intro hx
        rcases hx with hx | hx
        · rcases List.mem_append.mp hx with hx | hx
          · exact Or.inl hx
          · exact Or.inr (List.mem_cons.mpr (Or.inl (List.mem_singleton.mp hx)))
        · exact Or.inr (List.mem_cons_of_mem _ hx)
      · intro hx
        rcases hx with hx | hx
        · exact Or.inl (List.mem_append.mpr (Or.inl hx))
        · rcases List.mem_cons.mp hx with rfl | hx
          · exact Or.inl (List.mem_append.mpr (Or.inr (List.mem_singleton.mpr rfl)))
          · exact Or.inr hx

/-- Characterization of the `reduce((a, b) => cnt[a] > cnt[b] ? a : b)`
fold: starting from `a`, it returns either `a` itself — in which case every
later key has a strictly smaller count — or a key `r` of the list such that
`r`'s count dominates `a` and every earlier key, and strictly dominates
every later key.  In particular ties go to the *later* key. -/
theorem pickFav_charn (cnt : String → Nat) (ks : List String) : ∀ a : String,
    (pickFav cnt a ks = a ∧ ∀ k ∈ ks, cnt k < cnt a)
    ∨ (∃ pre r post, ks = pre ++ r :: post ∧ pickFav cnt a ks = r
        ∧ cnt a ≤ cnt r ∧ (∀ k ∈ pre, cnt k ≤ cnt r)
        ∧ (∀ k ∈ post, cnt k < cnt r)) := by
  induction ks with
  | nil =>
    intro a
    left
    exact ⟨rfl, by simp⟩
  | cons b rest ih =>
    intro a
    by_cases h : cnt a > cnt b
    · have hred : pickFav cnt a (b :: rest) = pickFav cnt a rest := by
        simp [pickFav, h]
      rcases ih a with ⟨heq, hall⟩ | ⟨pre, r, post, hks, heq, hle, hpre, hpost⟩
      · left
        refine ⟨hred.trans heq, ?_⟩
        intro k hk
        rcases List.mem_cons.mp hk with rfl | hk
        · exact h
        · exact hall k hk
      · right
        refine ⟨b :: pre, r, post, by rw [hks, List.cons_append], hred.trans heq, hle, ?_, hpost⟩
        intro k hk
        rcases List.mem_cons.mp hk with rfl | hk
        · exact le_of_lt (lt_of_lt_of_le h hle)
        · exact hpre k hk
    · have hred : pickFav cnt a (b :: rest) = pickFav cnt b rest := by
        simp [pickFav, h]
      have hab : cnt a ≤ cnt b := not_lt.mp h
      rcases ih b with ⟨heq, hall⟩ | ⟨pre, r, post, hks, heq, hle, hpre, hpost⟩
      · right
        exact ⟨[], b, rest, rfl, hred.trans heq, hab, by simp, hall⟩
      · right
        refine ⟨b :: pre, r, post, by rw [hks, List.cons_append], hred.trans heq,
          le_trans hab hle, ?_, hpost⟩
        intro k hk
        rcases List.mem_cons.mp hk with rfl | hk
        · exact hle
        · exact hpre k hk

/-- The favourite computation on a non-empty item list: the result is an
item of the list whose occurrence count is maximal, and within the
first-seen key order every key *after* the result has a strictly smaller
count — the last-seen key wins ties. -/
theorem favFrom_charn (gs : List String) (hne : gs ≠ []) :
    favFrom (countMap gs) ∈ gs
    ∧ (∀ g ∈ gs, occCount g gs ≤ occCount (favFrom (countMap gs)) gs)
    ∧ ∃ pre post, dedupFirst gs = pre ++ favFrom (countMap gs) :: post
        ∧ ∀ k ∈ post, occCount k gs < occCount (favFrom (countMap gs)) gs := by
  have hkeys : (countMap gs).map Prod.fst = dedupFirst gs := by
    rw [countMap, keys_foldl gs []]
    rfl
  have hcnt : ∀ k, lookCnt (countMap gs) k = occCount k gs := by
    intro k
    rw [countMap, lookCnt_foldl gs [] k]
    simp [lookCnt]
  have hmem : ∀ x, x ∈ dedupFirst gs ↔ x ∈ gs := by
    intro x
    rw [dedupFirst, mem_dedupAcc]
    simp
  obtain ⟨k0, ks, hk0⟩ : ∃ k0 ks, dedupFirst gs = k0 :: ks := by
    cases hd : dedupFirst gs with
    | nil =>
      exfalso
      obtain ⟨g, hg⟩ := List.exists_mem_of_ne_nil gs hne
      have := (hmem g).mpr hg
      rw [hd] at this
      exact List.not_mem_nil g this
    | cons a b => exact ⟨a, b, rfl⟩
  have hfav : favFrom (countMap gs) = pickFav (lookCnt (countMap gs)) k0 ks := by
    rw [favFrom, hkeys, hk0]
  have hdedup : ∀ x ∈ dedupFirst gs, x ∈ gs := fun x hx => (hmem x).mp hx
  rcases pickFav_charn (lookCnt (countMap gs)) ks k0 with
    ⟨heq, hall⟩ | ⟨pre, r, post, hks, heq, hle, hpre, hpost⟩
  · have hfa : favFrom (countMap gs) = k0 := hfav.trans heq
    refine ⟨hdedup _ (by rw [hk0, hfa]; exact List.mem_cons_self _ _), ?_, ?_⟩
    · intro g hg
      have hgd := (hmem g).mpr hg
      rw [hk0] at hgd
      rcases List.mem_cons.mp hgd with rfl | hgd
      · rw [hfa]
      · rw [hfa, ← hcnt g, ← hcnt k0]
        exact le_of_lt (hall g hgd)
    · refine ⟨[], ks, by rw [hk0, hfa, List.nil_append], ?_⟩
      intro k hk
      rw [hfa, ← hcnt k, ← hcnt k0]
      exact hall k hk
  · have hfa : favFrom (countMap gs) = r := hfav.trans heq
    have hrd : r ∈ dedupFirst gs := by
      rw [hk0, hks]
      exact List.mem_cons_of_mem _ (List.mem_append.mpr (Or.inr (List.mem_cons_self _ _)))
    refine ⟨hfa ▸ hdedup r hrd, ?_, ?_⟩
    · intro g hg
      have hgd := (hmem g).mpr hg
      rw [hk0, hks] at hgd
      rw [hfa, ← hcnt g, ← hcnt r]
      rcases List.mem_cons.mp hgd with rfl | hgd
      · exact hle
      · rcases List.mem_append.mp hgd with hgd | hgd
        · exact hpre g hgd
        · rcases List.mem_cons.mp hgd with rfl | hgd
          · exact le_refl _
          · exact le_of_lt (hpost g hgd)
    · refine ⟨k0 :: pre, post, by rw [hk0, hks, hfa, List.cons_append], ?_⟩
      intro k hk
      rw [hfa, ← hcnt k, ← hcnt r]
      exact hpost k hk

/-- C6 counterexample: with two books of distinct genres, each occurring
once (a tie), the statistics report the *last-seen* genre `"terror"` as the
favourite, not the first-seen `"aventura"` the claim predicts — the
`reduce` keeps the accumulator only on a strictly greater count. -/
theorem favorite_tie_last_seen_ce :
    (computeStats "2025-01-01" c6Books).preferences.favoriteGenre = "terror"
    ∧ ¬ (computeStats "2025-01-01" c6Books).preferences.favoriteGenre = "aventura" := by
  constructor
  · rfl
  · decide

/-- C6 (amended): the statistics' favourite genre is a genre with the
highest occurrence count among books that have a genre, with the *last*-seen
genre (in first-occurrence key order) winning ties — not the first-seen —
and is `"N/A"` when no book has a genre; the favourite author is computed
analogously over all books' authors and is `"N/A"` exactly when the
collection is empty. -/
theorem favorites_last_seen_wins (today : String) (books : List Book) :
    (computeStats today books).preferences.favoriteGenre = favoriteGenre books
    ∧ (computeStats today books).preferences.favoriteAuthor = favoriteAuthor books
    ∧ (genresOf books = [] → favoriteGenre books = "N/A")
    ∧ (genresOf books ≠ [] →
        favoriteGenre books ∈ genresOf books
        ∧ (∀ g ∈ genresOf books,
            occCount g (genresOf books) ≤ occCount (favoriteGenre books) (genresOf books))
        ∧ ∃ pre post, dedupFirst (genresOf books) = pre ++ favoriteGenre books :: post
            ∧ ∀ k ∈ post,
                occCount k (genresOf books) < occCount (favoriteGenre books) (genresOf books))
    ∧ (books = [] → favoriteAuthor books = "N/A")
    ∧ (books ≠ [] →
        favoriteAuthor books ∈ books.map Book.author
        ∧ (∀ a ∈ books.map Book.author,
            occCount a (books.map Book.author)
              ≤ occCount (favoriteAuthor books) (books.map Book.author))
        ∧ ∃ pre post,
            dedupFirst (books.map Book.author) = pre ++ favoriteAuthor books :: post
            ∧ ∀ k ∈ post,
                occCount k (books.map Book.author)
                  < occCount (favoriteAuthor books) (books.map Book.author)) := by
  refine ⟨rfl, rfl, ?_, ?_, ?_, ?_⟩
  · intro h
    rw [favoriteGenre, h]
    rfl
  · intro h
    exact favFrom_charn (genresOf books) h
  · intro h
    rw [favoriteAuthor, h]
    rfl
  · intro h
    refine favFrom_charn (books.map Book.author) ?_
    intro hmap
    exact h (List.map_eq_nil_iff.mp hmap)

/-- C6 witness: the amended favourites theorem at the two-book tie sample. -/
theorem favorites_last_seen_wins_witness :
    favoriteGenre c6Books ∈ genresOf c6Books
    ∧ occCount "aventura" (genresOf c6Books)
        ≤ occCount (favoriteGenre c6Books) (genresOf c6Books)
    ∧ favoriteAuthor c6Books ∈ c6Books.map Book.author := by
  have h := favorites_last_seen_wins "2025-01-01" c6Books
  have hg := h.2.2.2.1 (by decide)
  have ha := h.2.2.2.2.2 (by decide)
  exact ⟨hg.1, hg.2.1 "aventura" (by decide), ha.1⟩

end Biblioteca
